import Mathlib

/- Shallow embedding of the design-patterns repository (TypeScript).

   Modelling conventions:
   - JavaScript numbers are idealized as exact rationals.  Division by zero
     in JavaScript yields a non-finite value (Infinity or NaN), never a
     finite number; non-finite values stay non-finite under +, -, *, / with
     a finite operand.  A number is therefore modelled as `Option Rat`,
     where `none` stands for a non-finite value.
   - A thrown error is modelled with `Except String`.
   - A JavaScript record used as a map is modelled as an association list
     where an assignment conses the new binding in front, so that lookup
     (first match) sees the latest binding.
   - Console output is modelled as a `List String` of logged lines. -/

namespace DP

/-! ## Simple factory pattern (src/simpleFactoryPattern.ts) -/

/-- Candy products produced by the factory (`SweetCandy` / `SpicyCandy`). -/
inductive ICandy where
  | sweetCandy
  | spicyCandy
deriving DecidableEq, Repr

/-- Method `sellCandy` of the two concrete candy classes. -/
def sellCandy : ICandy → String
  | .sweetCandy => "cooked and sold a sweet candy"
  | .spicyCandy => "cooked and sold a spicy candy"

/-- The TypeScript type `CandyType = "sweet" | "spicy"` as a predicate on
    the untyped argument string. -/
def CandyType (s : String) : Prop := s = "sweet" ∨ s = "spicy"

instance (s : String) : Decidable (CandyType s) := by
  unfold CandyType; infer_instance

/-- Static method `candyFactory.getCandy`: a switch on the candy type whose
    default branch throws `Error("Invalid candy type")`. -/
def getCandy (candyType : String) : Except String ICandy :=
  if candyType = "sweet" then .ok .sweetCandy
  else if candyType = "spicy" then .ok .spicyCandy
  else .error "Invalid candy type"

/-! ## Command pattern (src/behavioralPatterns/commandPattern.ts) -/

/-- JavaScript division on idealized numbers: a zero divisor produces a
    non-finite value (`x/0` is Infinity or NaN), modelled as `none`. -/
def jsDiv (x d : Rat) : Option Rat := if d = 0 then none else some (x / d)

/-- The four concrete commands `Add`, `Subtract`, `Multiply`, `Divide`,
    each carrying its constructor argument. -/
inductive Command where
  | add (value : Rat)
  | subtract (value : Rat)
  | multiply (factor : Rat)
  | divide (divisor : Rat)
deriving DecidableEq, Repr

/-- Method `execute` of each command: it reads the calculator state
    (`this.calculator.getState()`) and returns the new number.  A
    non-finite state stays non-finite under every operation. -/
def Command.execute : Command → Option Rat → Option Rat
  | .add v, s => s.map (fun q => q + v)
  | .subtract v, s => s.map (fun q => q - v)
  | .multiply f, s => s.map (fun q => q * f)
  | .divide d, s => s.bind (fun q => jsDiv q d)

/-- Method `undo` of each command: the inverse expression as written in the
    source.  `Multiply.undo` divides by the factor with no zero guard, so it
    goes through `jsDiv`. -/
def Command.undo : Command → Option Rat → Option Rat
  | .add v, s => s.map (fun q => q - v)
  | .subtract v, s => s.map (fun q => q + v)
  | .multiply f, s => s.bind (fun q => jsDiv q f)
  | .divide d, s => s.map (fun q => q * d)

/-- The `Divide` constructor: it throws
    `Error("Division by zero is not allowed.")` when the divisor is 0 and
    otherwise produces the command. -/
def mkDivide (divisor : Rat) : Except String Command :=
  if divisor = 0 then .error "Division by zero is not allowed."
  else .ok (.divide divisor)

/-- The `Calculator` invoker: current state plus the executed-command stack.
    The TypeScript array with push/pop at the end is modelled as a list
    whose head is the top of the stack. -/
structure Calculator where
  state : Option Rat
  commands : List Command
deriving DecidableEq, Repr

/-- Method `Calculator.executeCommand`: set the state to `command.execute()`
    and push the command. -/
def Calculator.executeCommand (c : Calculator) (cmd : Command) : Calculator :=
  { state := cmd.execute c.state, commands := cmd :: c.commands }

/-- Method `Calculator.undoCommand`: pop the last command and, if one was
    there, set the state to its `undo()`. -/
def Calculator.undoCommand (c : Calculator) : Calculator :=
  match c.commands with
  | [] => c
  | lastCommand :: rest => { state := lastCommand.undo c.state, commands := rest }

/-! ## State pattern (src/behavioralPatterns/statePattern.ts) -/

/-- The four concrete states of an `Order`. -/
inductive OrderState where
  | paymentPending
  | cancelledOrder
  | orderShipped
  | orderPrepared
deriving DecidableEq, Repr

/-- The three methods an order delegates to its current state. -/
inductive OrderEvent where
  | verifyPayment
  | cancelOrder
  | shipOrder
deriving DecidableEq, Repr

/-- Name of the state class, as printed by `Order.setState` through
    `state.constructor.name`. -/
def stateName : OrderState → String
  | .paymentPending => "PaymentPendingState"
  | .cancelledOrder => "CancelledOrderState"
  | .orderShipped => "OrderShippedState"
  | .orderPrepared => "OrderPreparedState"

/-- Log line of `Order.setState`. -/
def setStateLog (s : OrderState) : String := "🔄 STATE CHANGED: " ++ stateName s

/-- One delegated method call: the next `currentState` together with the
    console lines it logs (the state method log, then the `setState` log
    when a transition happens).  Translated branch by branch from the four
    concrete state classes. -/
def orderStepLog : OrderState → OrderEvent → OrderState × List String
  | .paymentPending, .verifyPayment =>
      (.orderPrepared,
       ["✅ SUCCESS: Payment verified! Order will be prepared.",
        setStateLog .orderPrepared])
  | .paymentPending, .cancelOrder =>
      (.cancelledOrder,
       ["❌ ERROR: Order cancelled by user.", setStateLog .cancelledOrder])
  | .paymentPending, .shipOrder =>
      (.paymentPending,
       ["🚫 ACTION DENIED: Cannot ship the order. Please verify payment first."])
  | .cancelledOrder, .verifyPayment =>
      (.cancelledOrder,
       ["🚫 ACTION DENIED: Cannot verify payment. Order is cancelled."])
  | .cancelledOrder, .cancelOrder =>
      (.cancelledOrder, ["ℹ️  INFO: Order has already been cancelled."])
  | .cancelledOrder, .shipOrder =>
      (.cancelledOrder, ["🚫 ACTION DENIED: Cannot ship. Order is cancelled."])
  | .orderPrepared, .verifyPayment =>
      (.orderPrepared, ["ℹ️  INFO: Payment was already verified."])
  | .orderPrepared, .cancelOrder =>
      (.cancelledOrder,
       ["❌ ERROR: Order cancelled. Changes will be applied.",
        setStateLog .cancelledOrder])
  | .orderPrepared, .shipOrder =>
      (.orderShipped,
       ["📦 SUCCESS: Order shipped to customer.", setStateLog .orderShipped])
  | .orderShipped, .verifyPayment =>
      (.orderShipped, ["ℹ️  INFO: Payment already verified. Order is shipped."])
  | .orderShipped, .cancelOrder =>
      (.orderShipped, ["🚫 ACTION DENIED: Cannot cancel. Order is already shipped."])
  | .orderShipped, .shipOrder =>
      (.orderShipped, ["ℹ️  INFO: Order has already been shipped."])

/-- The state transition alone (the `currentState` after one delegated
    call). -/
def orderStep (s : OrderState) (e : OrderEvent) : OrderState :=
  (orderStepLog s e).1

/-- Running a sequence of delegated calls on an order. -/
def runOrder (s : OrderState) (es : List OrderEvent) : OrderState :=
  es.foldl orderStep s

/-! ## Memento pattern, first variant (src/behavioralPatterns/mementoPattern.ts):
     `TextEditor` originator with `ConcreteEditorMemento`. -/

/-- `ConcreteEditorMemento`: the saved editor content. -/
structure EditorMemento where
  content : String
deriving DecidableEq, Repr

/-- `TextEditor` originator: mutable `content`. -/
structure TextEditor where
  content : String
deriving DecidableEq, Repr

/-- Method `type`: appends text to the current content. -/
def TextEditor.typeText (e : TextEditor) (text : String) : TextEditor :=
  { content := e.content ++ text }

/-- Method `getContent`. -/
def TextEditor.getContent (e : TextEditor) : String := e.content

/-- Method `save`: returns a memento of the current content and leaves the
    editor itself as it was (the returned pair carries both, mirroring that
    the TypeScript method only reads `this.content`). -/
def TextEditor.save (e : TextEditor) : EditorMemento × TextEditor :=
  ({ content := e.content }, e)

/-- Method `restore`: overwrites the content from the memento. -/
def TextEditor.restore (_e : TextEditor) (m : EditorMemento) : TextEditor :=
  { content := m.content }

/-- A sequence of `type` calls. -/
def typeAll (e : TextEditor) (ts : List String) : TextEditor :=
  ts.foldl TextEditor.typeText e

/-- `EditorHistory` caretaker: stack of mementos, head of the list being the
    top of the stack. -/
structure EditorHistory where
  mementos : List EditorMemento
deriving DecidableEq, Repr

/-- Method `EditorHistory.backup`: push a memento. -/
def EditorHistory.backup (h : EditorHistory) (m : EditorMemento) : EditorHistory :=
  { mementos := m :: h.mementos }

/-- Method `EditorHistory.undo`: pop and return the most recent memento;
    on an empty history it returns `undefined`, modelled `none`. -/
def EditorHistory.undo (h : EditorHistory) : Option EditorMemento × EditorHistory :=
  match h.mementos with
  | [] => (none, h)
  | m :: rest => (some m, { mementos := rest })

/-! ## Iterator pattern (src/behavioralPatterns/iteratorPattern.ts) -/

/-- `ArrayIterator`: a collection with a current position. -/
structure ArrayIterator (α : Type) where
  collection : List α
  position : Nat
deriving DecidableEq, Repr

/-- Method `hasNext`. -/
def ArrayIterator.hasNext (it : ArrayIterator α) : Bool :=
  it.position < it.collection.length

/-- Method `next`: returns `collection[position++]`.  Indexing past the end
    of a JavaScript array yields `undefined`, modelled `none`. -/
def ArrayIterator.next (it : ArrayIterator α) : Option α × ArrayIterator α :=
  (it.collection.get? it.position, { it with position := it.position + 1 })

/-! ## Proxy pattern (src/structuralPatterns/proxyPattern.ts) -/

/-- Method `Cdn.retriveHtml`. -/
def retriveHtml (fileName : String) : String :=
  "📄 Sending HTML for file: " ++ fileName

/-- Method `Cdn.retriveCss`. -/
def retriveCss (fileName : String) : String :=
  "🎨 Sending CSS for file: " ++ fileName

/-- Method `Cdn.retriveJs`. -/
def retriveJs (fileName : String) : String :=
  "📜 Sending JS for file: " ++ fileName

/-- Lookup in the record modelled as an association list (first match is
    the latest assignment). -/
def cacheLookup : List (String × String) → String → Option String
  | [], _ => none
  | (k, v) :: rest, key => if k = key then some v else cacheLookup rest key

/-- `ProxyServer`: the in-memory cache record. -/
structure ProxyServer where
  cache : List (String × String)
deriving DecidableEq, Repr

/-- Shared shape of the three getters: look the kind-prefixed key up and
    either serve the cached value or fetch `content` and store it.  The
    TypeScript guard `if (this.cache[key])` is truthiness, so a missing key
    and a cached empty string both take the fetch branch.  Returns the
    content, the `cacheHit` flag and the updated proxy. -/
def ProxyServer.fetchCached (p : ProxyServer) (key content : String) :
    String × Bool × ProxyServer :=
  match cacheLookup p.cache key with
  | some v =>
      if v = "" then (content, false, { cache := (key, content) :: p.cache })
      else (v, true, p)
  | none => (content, false, { cache := (key, content) :: p.cache })

/-- Method `ProxyServer.getHtml`. -/
def ProxyServer.getHtml (p : ProxyServer) (fileName : String) :
    String × Bool × ProxyServer :=
  p.fetchCached ("html:" ++ fileName) (retriveHtml fileName)

/-- Method `ProxyServer.getCss`. -/
def ProxyServer.getCss (p : ProxyServer) (fileName : String) :
    String × Bool × ProxyServer :=
  p.fetchCached ("css:" ++ fileName) (retriveCss fileName)

/-- Method `ProxyServer.getJs`. -/
def ProxyServer.getJs (p : ProxyServer) (fileName : String) :
    String × Bool × ProxyServer :=
  p.fetchCached ("js:" ++ fileName) (retriveJs fileName)

/-- One call a client can make on a proxy server. -/
inductive ProxyOp where
  | getHtml (fileName : String)
  | getCss (fileName : String)
  | getJs (fileName : String)
deriving DecidableEq, Repr

/-- Apply one client call, keeping only the resulting proxy. -/
def ProxyServer.applyOp (p : ProxyServer) : ProxyOp → ProxyServer
  | .getHtml f => (p.getHtml f).2.2
  | .getCss f => (p.getCss f).2.2
  | .getJs f => (p.getJs f).2.2

/-- A `ProxyServer` as the constructor makes it: empty cache. -/
def freshProxy : ProxyServer := { cache := [] }

/-- Every proxy state reachable from the constructor by client calls. -/
def runProxy (p : ProxyServer) (ops : List ProxyOp) : ProxyServer :=
  ops.foldl ProxyServer.applyOp p

/-! ## Singleton pattern (src/creationalPatterns/singletonPattern.ts)

    JavaScript object identity is modelled with a heap: `instances` lists
    the `connectionCount` of every `Singleton` object ever constructed, and
    a reference to an object is its index in that list.  The static field
    `singletonInstance` holds such a reference or `none`. -/

/-- The module-level mutable state of the singleton example. -/
structure SingletonModule where
  instances : List Nat
  singletonInstance : Option Nat
deriving DecidableEq, Repr

/-- The module state when the module is first loaded: no object constructed,
    static field unset. -/
def freshSingletonModule : SingletonModule :=
  { instances := [], singletonInstance := none }

/-- Static method `Singleton.getInstance`: construct the instance if the
    static field is unset, then return it.  Returns the reference and the
    new module state. -/
def SingletonModule.getInstance (m : SingletonModule) : Nat × SingletonModule :=
  match m.singletonInstance with
  | some r => (r, m)
  | none =>
      let r := m.instances.length
      (r, { instances := m.instances ++ [0], singletonInstance := some r })

/-- Method `establishConnection` called through reference `r`: increments
    that object's `connectionCount`. -/
def SingletonModule.establish (m : SingletonModule) (r : Nat) : SingletonModule :=
  { m with instances := m.instances.set r ((m.instances.getD r 0) + 1) }

/-- Method `getConnectionCount` called through reference `r`. -/
def SingletonModule.getCount (m : SingletonModule) (r : Nat) : Nat :=
  m.instances.getD r 0

/-- One call of a client trace: `establishConnection` and
    `getConnectionCount` are made through a reference `r` the client holds. -/
inductive SingletonOp where
  | getInstance
  | establishConnection (r : Nat)
  | getConnectionCount (r : Nat)
deriving DecidableEq, Repr

/-- Run a trace of calls, collecting each call's return value (`none` for
    the void `establishConnection`). -/
def runSingleton (m : SingletonModule) : List SingletonOp → List (Option Nat)
  | [] => []
  | .getInstance :: rest =>
      some (m.getInstance).1 :: runSingleton (m.getInstance).2 rest
  | .establishConnection r :: rest =>
      none :: runSingleton (m.establish r) rest
  | .getConnectionCount r :: rest =>
      some (m.getCount r) :: runSingleton m rest

/-- A trace is valid when every reference a call goes through was obtained
    from an earlier `getInstance` call: the only way TypeScript client code
    can reach the private constructor or the instance. -/
def validFrom (m : SingletonModule) (obtained : List Nat) :
    List SingletonOp → Bool
  | [] => true
  | .getInstance :: rest =>
      validFrom (m.getInstance).2 ((m.getInstance).1 :: obtained) rest
  | .establishConnection r :: rest =>
      obtained.contains r && validFrom (m.establish r) obtained rest
  | .getConnectionCount r :: rest =>
      obtained.contains r && validFrom m obtained rest

/-- Modelled from the claim wording, for comparison with `runSingleton`:
    every `getInstance` yields one and the same reference (the first one
    ever allocated), and every `getConnectionCount` yields the number of
    `establishConnection` calls made so far, `c` being that running count. -/
def singletonSpecResults (c : Nat) : List SingletonOp → List (Option Nat)
  | [] => []
  | .getInstance :: rest => some 0 :: singletonSpecResults c rest
  | .establishConnection _ :: rest => none :: singletonSpecResults (c + 1) rest
  | .getConnectionCount _ :: rest => some c :: singletonSpecResults c rest

/-! ## Memento pattern, second variant
     (src/behavioralPatterns/mementoPattern.ts): `HistoryManager` with a
     date-stamped `ConcreteEditorMemento`.  The ambient wall-clock reading
     that `new Date()` would take is passed in as `d`. -/

/-- JavaScript `String.prototype.substring(a, b)` for `a ≤ b`, clamping the
    indices to the string length. -/
def jsSubstring (s : String) (a b : Nat) : String :=
  ((s.toList.drop a).take (b - a)).asString

/-- `ConcreteEditorMemento` of the `HistoryManager` variant: the saved
    state together with the date string captured at construction time. -/
structure EditorMemento2 where
  state : String
  date : String
deriving DecidableEq, Repr

/-- Method `getName`: the date followed by a 15-character preview of the
    state. -/
def EditorMemento2.getName (m : EditorMemento2) : String :=
  m.date ++ " / (" ++ jsSubstring m.state 0 15 ++ "...)"

/-- `TextEditor` of the `HistoryManager` variant. -/
structure TextEditor2 where
  content : String
deriving DecidableEq, Repr

/-- Constructor of `TextEditor2`: logs the initial content. -/
def TextEditor2.mkLog (c : String) : TextEditor2 × String :=
  ({ content := c }, "Editor: Initial content is: \"" ++ c ++ "\"")

/-- Method `type` with its log line. -/
def TextEditor2.typeLog (e : TextEditor2) (text : String) : TextEditor2 × String :=
  ({ content := e.content ++ text },
   "Editor: Appended \"" ++ text ++ "\". Current content: \"" ++
     (e.content ++ text) ++ "\"")

/-- Method `save` with its log line: captures the content and the current
    date `d`. -/
def TextEditor2.saveLog (e : TextEditor2) (d : String) : EditorMemento2 × String :=
  ({ state := e.content, date := d }, "Editor: Saving current state...")

/-- Method `restore` with its log line. -/
def TextEditor2.restoreLog (_e : TextEditor2) (m : EditorMemento2) :
    TextEditor2 × String :=
  ({ content := m.state }, "Editor: Restored state to: \"" ++ m.state ++ "\"")

/-- `HistoryManager` caretaker: mementos in insertion order (push and pop at
    the end, iteration from the front as in the source). -/
structure HistoryManager where
  mementos : List EditorMemento2
deriving DecidableEq, Repr

/-- Method `backup`: log, save the editor, push the memento. -/
def HistoryManager.backup (hm : HistoryManager) (e : TextEditor2) (d : String) :
    HistoryManager × List String :=
  let sv := e.saveLog d
  ({ mementos := hm.mementos ++ [sv.1] },
   ["\nHistoryManager: Saving editor\x27s state...", sv.2])

/-- Method `undo`: pop the last memento and restore the editor from it, or
    log that there is nothing to restore. -/
def HistoryManager.undoM (hm : HistoryManager) (e : TextEditor2) :
    HistoryManager × TextEditor2 × List String :=
  match hm.mementos.getLast? with
  | none => (hm, e, ["HistoryManager: No previous states to restore."])
  | some m =>
      let rs := e.restoreLog m
      ({ mementos := hm.mementos.dropLast }, rs.1,
       ["HistoryManager: Restoring state to: \"" ++ m.getName ++ "\"", rs.2])

/-- Method `showHistory`: header plus one line per stored memento. -/
def HistoryManager.showHistory (hm : HistoryManager) : List String :=
  "\nHistoryManager: Here\x27s the history:" ::
    hm.mementos.map (fun m => "- " ++ m.getName)

/-! ## Demo programs

    Each pattern file exports a default demo function.  A demo is embedded
    as a function of the ambient wall-clock date string and of the
    singleton module state - the only module-level mutable state among the
    embedded files - returning its console lines and the new module state.
    Demos whose source never reads the clock or that module state ignore
    the corresponding argument. -/

/-- JavaScript rendering of a boolean inside a template literal. -/
def jsBool (b : Bool) : String := if b then "true" else "false"

/-- Log line of a proxy HTML request, as printed inside `getHtml`. -/
def ProxyServer.getHtmlLog (p : ProxyServer) (f : String) : String × ProxyServer :=
  let r := p.getHtml f
  ("[PROXY][HTML] " ++ f ++ " | cacheHit: " ++ jsBool r.2.1, r.2.2)

/-- Log line of a proxy CSS request, as printed inside `getCss`. -/
def ProxyServer.getCssLog (p : ProxyServer) (f : String) : String × ProxyServer :=
  let r := p.getCss f
  ("[PROXY][CSS] " ++ f ++ " | cacheHit: " ++ jsBool r.2.1, r.2.2)

/-- Log line of a proxy JS request, as printed inside `getJs`. -/
def ProxyServer.getJsLog (p : ProxyServer) (f : String) : String × ProxyServer :=
  let r := p.getJs f
  ("[PROXY][JS] " ++ f ++ " | cacheHit: " ++ jsBool r.2.1, r.2.2)

/-- A demo function: date and module state in, console lines and module
    state out. -/
def DemoFun : Type := String → SingletonModule → List String × SingletonModule

/-- Demo of the singleton file: two `getInstance` references, connection
    counts logged while connections are established through both. -/
def singletonDemo : DemoFun := fun _d g =>
  let i1 := g.getInstance
  let i2 := i1.2.getInstance
  let m0 := i2.2
  let l1 := toString (m0.getCount i1.1)
  let m1 := m0.establish i1.1
  let l2 := toString (m1.getCount i1.1)
  let m2 := m1.establish i1.1
  let l3 := toString (m2.getCount i1.1)
  let l5 := toString (m2.getCount i2.1)
  let m3 := m2.establish i2.1
  let l6 := toString (m3.getCount i2.1)
  let m4 := m3.establish i2.1
  let l7 := toString (m4.getCount i2.1)
  ([l1, l2, l3, "---------------", l5, l6, l7], m4)

/-- Demo of the proxy file: nine requests against a fresh proxy server. -/
def proxyDemo : DemoFun := fun _d g =>
  let r1 := freshProxy.getHtmlLog "file_1.html"
  let r2 := r1.2.getHtmlLog "file_1.html"
  let r3 := r2.2.getHtmlLog "file_2.html"
  let r4 := r3.2.getCssLog "file_4.css"
  let r5 := r4.2.getJsLog "file_4.js"
  let r6 := r5.2.getJsLog "file_4.js"
  let r7 := r6.2.getCssLog "file_4.css"
  let r8 := r7.2.getCssLog "file_5.css"
  let r9 := r8.2.getJsLog "file_6.js"
  ([r1.1, r2.1, r3.1, r4.1, r5.1, r6.1, r7.1, r8.1, r9.1], g)

/-- Logging variant of `TextEditor.type` for the first memento demo. -/
def TextEditor.typeLog (e : TextEditor) (text : String) : TextEditor × String :=
  (e.typeText text, "📝 Typed: \"" ++ text ++ "\"")

/-- Logging variant of `TextEditor.save`. -/
def TextEditor.saveLog (e : TextEditor) : EditorMemento × String :=
  ((e.save).1, "💾 State saved: \"" ++ e.content ++ "\"")

/-- Logging variant of `TextEditor.restore`. -/
def TextEditor.restoreLog (e : TextEditor) (m : EditorMemento) :
    TextEditor × String :=
  (e.restore m, "⏪ Restored to: \"" ++ m.content ++ "\"")

/-- Logging variant of `EditorHistory.backup`. -/
def EditorHistory.backupLog (h : EditorHistory) (m : EditorMemento) :
    EditorHistory × String :=
  (h.backup m,
   "📚 Backup added. Total states: " ++ toString (h.backup m).mementos.length)

/-- Logging variant of `EditorHistory.undo`. -/
def EditorHistory.undoLog (h : EditorHistory) :
    (Option EditorMemento × EditorHistory) × String :=
  (h.undo,
   match (h.undo).1 with
   | some _ => "↩️ Undo performed."
   | none => "⚠️ No previous state to undo.")

/-- Demo of the first memento file: type, back up, mistype, undo,
    restore. -/
def mementoDemo : DemoFun := fun _d g =>
  let t1 := (TextEditor.mk "").typeLog "Hello"
  let t2 := t1.1.typeLog " "
  let t3 := t2.1.typeLog "world"
  let sv := t3.1.saveLog
  let bk := (EditorHistory.mk []).backupLog sv.1
  let cur := "📄 Current content: \"" ++ t3.1.getContent ++ "\""
  let t4 := t3.1.typeLog "mispelled"
  let typo := "📄 After typo: \"" ++ t4.1.getContent ++ "\""
  let un := bk.1.undoLog
  let rest :=
    match un.1.1 with
    | some pm =>
        let rs := t4.1.restoreLog pm
        (rs.1, [rs.2])
    | none => (t4.1, [])
  let fin := "📄 Final content: \"" ++ rest.1.getContent ++ "\""
  ([t1.2, t2.2, t3.2, sv.2, bk.2, cur, t4.2, typo, un.2] ++ rest.2 ++ [fin], g)

/-- Delegated calls on an order with their console lines. -/
def runOrderLog (s : OrderState) : List OrderEvent → OrderState × List String
  | [] => (s, [])
  | e :: rest =>
      let r := orderStepLog s e
      let r2 := runOrderLog r.1 rest
      (r2.1, r.2 ++ r2.2)

/-- Demo of the state file: ship, cancel, verify, ship on a fresh order. -/
def stateDemo : DemoFun := fun _d g =>
  ((runOrderLog .paymentPending
      [.shipOrder, .cancelOrder, .verifyPayment, .shipOrder]).2, g)

/-- The while loop of the iterator demo: log elements while `hasNext`. -/
def runIteratorLoop (it : ArrayIterator Nat) : List String :=
  if _h : it.position < it.collection.length then
    (match (it.next).1 with
     | some x => [toString x]
     | none => ["undefined"]) ++ runIteratorLoop (it.next).2
  else []
termination_by it.collection.length - it.position
decreasing_by simp [ArrayIterator.next]; omega

/-- Demo of the iterator file: iterate over the numbers 1 to 5. -/
def iteratorDemo : DemoFun := fun _d g =>
  ("Iterating through numbers:" ::
     runIteratorLoop { collection := [1, 2, 3, 4, 5], position := 0 }, g)

/-- Demo of the `HistoryManager` memento variant: the mementos carry the
    wall-clock date `d`, which `showHistory` and `undo` print. -/
def mementoHistoryDemo : DemoFun := fun d g =>
  let ed := TextEditor2.mkLog ""
  let b1 := (HistoryManager.mk []).backup ed.1 d
  let t1 := ed.1.typeLog "Hello, "
  let b2 := b1.1.backup t1.1 d
  let t2 := t1.1.typeLog "world!"
  let b3 := b2.1.backup t2.1 d
  let t3 := t2.1.typeLog " How are you?"
  let fin := "\nFinal content: \"" ++ t3.1.content ++ "\""
  let sh := b3.1.showHistory
  let cl := "\nClient: Now, let\x27s undo some changes!"
  let u1 := b3.1.undoM t3.1
  let c1 := "Current content after undo: \"" ++ u1.2.1.content ++ "\""
  let u2 := u1.1.undoM u1.2.1
  let c2 := "Current content after undo: \"" ++ u2.2.1.content ++ "\""
  let u3 := u2.1.undoM u2.2.1
  let c3 := "Current content after undo: \"" ++ u3.2.1.content ++ "\""
  let u4 := u3.1.undoM u3.2.1
  (ed.2 :: b1.2 ++ [t1.2] ++ b2.2 ++ [t2.2] ++ b3.2 ++ [t3.2] ++ [fin] ++
     sh ++ [cl] ++ u1.2.2 ++ [c1] ++ u2.2.2 ++ [c2] ++ u3.2.2 ++ [c3] ++
     u4.2.2, g)

/-- The embedded demos, indexed: singleton, proxy, memento, state,
    iterator. -/
def demoAt : Fin 5 → DemoFun
  | 0 => singletonDemo
  | 1 => proxyDemo
  | 2 => mementoDemo
  | 3 => stateDemo
  | 4 => iteratorDemo

/-- Run a list of demos in order, threading the module state. -/
def runDemos (d : String) (g : SingletonModule) : List (Fin 5) → SingletonModule
  | [] => g
  | i :: rest => runDemos d (demoAt i d g).2 rest

/-! ## Specification predicates -/

/-- Every value stored in a proxy cache is a non-empty string (they all
    come from the `Cdn` methods, whose results start with an emoji). -/
def cacheValuesNonempty (p : ProxyServer) : Prop :=
  ∀ kv ∈ p.cache, kv.2 ≠ ""

/-- The look-up-or-compute contract of one proxy getter at one proxy state
    and file name: a cached key is served from the cache without change, an
    absent key is computed, stored and returned; two consecutive calls
    return equal strings, the second being a hit, and the first a miss when
    the key was absent. -/
def getterOK (kind : String) (retrieve : String → String)
    (get : ProxyServer → String → String × Bool × ProxyServer)
    (p : ProxyServer) (f : String) : Prop :=
  (∀ v, cacheLookup p.cache (kind ++ f) = some v → get p f = (v, true, p))
  ∧ (cacheLookup p.cache (kind ++ f) = none →
      get p f = (retrieve f, false,
        { cache := (kind ++ f, retrieve f) :: p.cache }))
  ∧ (get p f).1 = (get (get p f).2.2 f).1
  ∧ (get (get p f).2.2 f).2.1 = true
  ∧ (cacheLookup p.cache (kind ++ f) = none → (get p f).2.1 = false)

/-! # Theorems -/

/-! ## Helper lemmas -/

theorem orderStep_terminal (t : OrderState) (e : OrderEvent)
    (h : t = .cancelledOrder ∨ t = .orderShipped) : orderStep t e = t := by
  rcases h with h | h <;> subst h <;> cases e <;> rfl


/-! ## C2: simple factory error handling -/

/-- C2: `candyFactory.getCandy` throws `Error("Invalid candy type")` if and
    only if its argument is neither `"sweet"` nor `"spicy"`; `"sweet"`
    yields a `SweetCandy` and `"spicy"` a `SpicyCandy`, whose `sellCandy`
    results are the two fixed sale strings; under the `CandyType`
    precondition the error branch is unreachable. -/
theorem candyFactory_getCandy_spec (s : String) :
    (getCandy s = Except.error "Invalid candy type" ↔
      s ≠ "sweet" ∧ s ≠ "spicy")
    ∧ getCandy "sweet" = Except.ok ICandy.sweetCandy
    ∧ sellCandy ICandy.sweetCandy = "cooked and sold a sweet candy"
    ∧ getCandy "spicy" = Except.ok ICandy.spicyCandy
    ∧ sellCandy ICandy.spicyCandy = "cooked and sold a spicy candy"
    ∧ (CandyType s → ∃ c, getCandy s = Except.ok c) := by
  unfold getCandy CandyType
  by_cases h1 : s = "sweet" <;> by_cases h2 : s = "spicy" <;>
    simp [h1, h2, sellCandy]

/-- C2 witness: an invalid type throws and a valid one does not. -/
theorem candyFactory_getCandy_spec_witness :
    getCandy "salty" = Except.error "Invalid candy type"
    ∧ ∃ c, getCandy "sweet" = Except.ok c :=
  ⟨(candyFactory_getCandy_spec "salty").1.mpr (by decide),
   (candyFactory_getCandy_spec "sweet").2.2.2.2.2 (Or.inl rfl)⟩

/-! ## C3: the Divide guard -/

/-- C3: constructing a `Divide` command throws
    `Error("Division by zero is not allowed.")` exactly for divisor 0; for
    every non-zero divisor construction succeeds and `execute` divides the
    current state by the divisor (and `undo` multiplies it back) with a
    defined finite result, the guard playing no role after construction. -/
theorem divide_guard_spec (d : Rat) :
    (mkDivide d = Except.error "Division by zero is not allowed." ↔ d = 0)
    ∧ (d ≠ 0 →
        mkDivide d = Except.ok (Command.divide d)
        ∧ ∀ q : Rat,
            (Command.divide d).execute (some q) = some (q / d)
            ∧ (Command.divide d).undo (some q) = some (q * d)) := by
  constructor
  · unfold mkDivide
    split <;> simp_all
  · intro hd
    refine ⟨by unfold mkDivide; simp [hd], fun q => ⟨?_, ?_⟩⟩
    · simp [Command.execute, jsDiv, hd]
    · simp [Command.undo]

/-- C3 witness: divisor 2 constructs and divides; divisor 0 throws. -/
theorem divide_guard_spec_witness :
    mkDivide 2 = Except.ok (Command.divide 2)
    ∧ (Command.divide 2).execute (some 10) = some 5
    ∧ mkDivide 0 = Except.error "Division by zero is not allowed." := by
  have h := (divide_guard_spec 2).2 (by norm_num)
  refine ⟨h.1, ?_, (divide_guard_spec 0).1.mpr rfl⟩
  rw [(h.2 10).1]
  norm_num

/-! ## C9: execute-then-undo round trips -/

/-- C9: executing a command and immediately undoing it restores the state:
    always for `Add` and `Subtract`; for `Multiply` exactly when the factor
    is non-zero (its undo divides with no zero guard); for `Divide` under
    the non-zero divisor its constructor guarantees. -/
theorem execute_undo_roundtrip (s v f d : Rat) (cs : List Command) :
    (({ state := some s, commands := cs : Calculator }.executeCommand
        (.add v)).undoCommand.state = some s)
    ∧ (({ state := some s, commands := cs : Calculator }.executeCommand
        (.subtract v)).undoCommand.state = some s)
    ∧ ((({ state := some s, commands := cs : Calculator }.executeCommand
        (.multiply f)).undoCommand.state = some s) ↔ f ≠ 0)
    ∧ (d ≠ 0 →
        ({ state := some s, commands := cs : Calculator }.executeCommand
          (.divide d)).undoCommand.state = some s) := by
  refine ⟨?_, ?_, ?_, ?_⟩
  · simp [Calculator.executeCommand, Calculator.undoCommand,
      Command.execute, Command.undo]
  · simp [Calculator.executeCommand, Calculator.undoCommand,
      Command.execute, Command.undo]
  · by_cases hf : f = 0
    · subst hf
      simp [Calculator.executeCommand, Calculator.undoCommand,
        Command.execute, Command.undo, jsDiv]
    · simp [Calculator.executeCommand, Calculator.undoCommand,
        Command.execute, Command.undo, jsDiv, hf,
        mul_div_cancel_right₀ s hf]
  · intro hd
    simp [Calculator.executeCommand, Calculator.undoCommand,
      Command.execute, Command.undo, jsDiv, hd, div_mul_cancel₀ s hd]

/-- C9 witness: at state 3, multiply by 2 and divide by 2 both round-trip,
    and multiply by 0 does not. -/
theorem execute_undo_roundtrip_witness :
    (({ state := some 3, commands := [] : Calculator }.executeCommand
        (.multiply 2)).undoCommand.state = some 3)
    ∧ (({ state := some 3, commands := [] : Calculator }.executeCommand
        (.divide 2)).undoCommand.state = some 3)
    ∧ ¬ (({ state := some 3, commands := [] : Calculator }.executeCommand
        (.multiply 0)).undoCommand.state = some 3) := by
  have h := execute_undo_roundtrip 3 1 2 2 []
  have h0 := execute_undo_roundtrip 3 1 0 2 []
  refine ⟨h.2.2.1.mpr (by norm_num), h.2.2.2 (by norm_num), ?_⟩
  intro hc
  exact (h0.2.2.1.mp hc) rfl

/-! ## C4: terminal order states absorb -/

/-- C4: once an order is cancelled or shipped its state never changes
    under any further sequence of calls, and the only changing transitions
    are payment-pending to prepared or cancelled and prepared to shipped or
    cancelled. -/
theorem order_terminal_absorbing (s : OrderState) (es : List OrderEvent) :
    ((s = .cancelledOrder ∨ s = .orderShipped) → runOrder s es = s)
    ∧ (∀ (t : OrderState) (e : OrderEvent), orderStep t e ≠ t →
        (t = .paymentPending ∧
          (orderStep t e = .orderPrepared ∨ orderStep t e = .cancelledOrder))
        ∨ (t = .orderPrepared ∧
          (orderStep t e = .orderShipped ∨ orderStep t e = .cancelledOrder))) := by
  constructor
  · intro h
    induction es with
    | nil => rfl
    | cons e rest ih =>
        show runOrder (orderStep s e) rest = s
        rw [orderStep_terminal s e h]
        exact ih
  · intro t e h
    cases t <;> cases e <;> revert h <;> decide

/-- C4 witness: a cancelled order survives further calls unchanged, and
    the payment-pending to prepared transition is among the allowed ones. -/
theorem order_terminal_absorbing_witness :
    runOrder OrderState.cancelledOrder
        [OrderEvent.verifyPayment, OrderEvent.shipOrder]
      = OrderState.cancelledOrder
    ∧ ((OrderState.paymentPending = OrderState.paymentPending ∧
          (orderStep .paymentPending .verifyPayment = .orderPrepared ∨
           orderStep .paymentPending .verifyPayment = .cancelledOrder))
       ∨ (OrderState.paymentPending = OrderState.orderPrepared ∧
          (orderStep .paymentPending .verifyPayment = .orderShipped ∨
           orderStep .paymentPending .verifyPayment = .cancelledOrder))) :=
  ⟨(order_terminal_absorbing .cancelledOrder _).1 (Or.inl rfl),
   (order_terminal_absorbing .cancelledOrder []).2 .paymentPending
     .verifyPayment (by decide)⟩

/-! ## C10: memento save and restore -/

/-- C10: a memento taken when the content is `s` restores the content to
    exactly `s` after any sequence of `type` calls; `save` leaves the
    content untouched and each `type` appends its argument. -/
theorem memento_restore_roundtrip (s t : String) (ts : List String)
    (e : TextEditor) :
    ((typeAll ((TextEditor.mk s).save).2 ts).restore
        ((TextEditor.mk s).save).1).getContent = s
    ∧ ((TextEditor.mk s).save).2.getContent = s
    ∧ (e.typeText t).getContent = e.getContent ++ t :=
  ⟨rfl, rfl, rfl⟩

/-! ## C8: the only throwing operations -/

/-- C8: apart from `candyFactory.getCandy` on an invalid candy type and the
    `Divide` constructor on divisor 0, the embedded operations are total:
    `ArrayIterator.next` past the end and `EditorHistory.undo` on an empty
    history return `undefined` rather than throwing, and the two throwing
    operations throw exactly on those inputs. -/
theorem no_other_throws (xs : List Rat) (pos : Nat) (s : String) (d : Rat)
    (hpos : xs.length ≤ pos) :
    ((ArrayIterator.mk xs pos).next).1 = none
    ∧ (EditorHistory.mk []).undo = (none, EditorHistory.mk [])
    ∧ ((∃ e, getCandy s = Except.error e) ↔ ¬ CandyType s)
    ∧ ((∃ e, mkDivide d = Except.error e) ↔ d = 0) := by
  refine ⟨?_, rfl, ?_, ?_⟩
  · simp only [ArrayIterator.next]
    exact List.get?_eq_none.mpr hpos
  · unfold getCandy CandyType
    by_cases h1 : s = "sweet" <;> by_cases h2 : s = "spicy" <;>
      simp [h1, h2]
  · unfold mkDivide
    split <;> simp_all

/-- C8 witness: the iterator past the end yields `undefined`, and divisor 0
    throws. -/
theorem no_other_throws_witness :
    ((ArrayIterator.mk [(1 : Rat)] 1).next).1 = none
    ∧ ∃ e, mkDivide (0 : Rat) = Except.error e := by
  have h := no_other_throws [(1 : Rat)] 1 "salty" 0 (by simp)
  exact ⟨h.1, h.2.2.2.mpr rfl⟩

/-! ## C1: the proxy cache looks up or computes -/

theorem retriveHtml_ne_empty (f : String) : retriveHtml f ≠ "" := by
  unfold retriveHtml
  intro h
  have hd := congrArg String.data h
  simp [String.data_append] at hd

theorem retriveCss_ne_empty (f : String) : retriveCss f ≠ "" := by
  unfold retriveCss
  intro h
  have hd := congrArg String.data h
  simp [String.data_append] at hd

theorem retriveJs_ne_empty (f : String) : retriveJs f ≠ "" := by
  unfold retriveJs
  intro h
  have hd := congrArg String.data h
  simp [String.data_append] at hd

theorem cacheLookup_mem (c : List (String × String)) (k v : String)
    (h : cacheLookup c k = some v) : (k, v) ∈ c := by
  induction c with
  | nil => simp [cacheLookup] at h
  | cons kv rest ih =>
      obtain ⟨k2, v2⟩ := kv
      by_cases hk : k2 = k
      · simp [cacheLookup, hk] at h
        subst hk
        subst h
        exact List.mem_cons_self _ _
      · simp [cacheLookup, hk] at h
        exact List.mem_cons_of_mem _ (ih h)

theorem fetchCached_preserves (p : ProxyServer) (key content : String)
    (hc : content ≠ "") (h : cacheValuesNonempty p) :
    cacheValuesNonempty (p.fetchCached key content).2.2 := by
  unfold ProxyServer.fetchCached
  rcases hl : cacheLookup p.cache key with _ | v
  · simp only [hl]
    intro kv hkv
    rcases List.mem_cons.mp hkv with h1 | h2
    · rw [h1]; exact hc
    · exact h kv h2
  · simp only [hl]
    split
    · intro kv hkv
      rcases List.mem_cons.mp hkv with h1 | h2
      · rw [h1]; exact hc
      · exact h kv h2
    · exact h

theorem runProxy_nonempty_from (ops : List ProxyOp) :
    ∀ p, cacheValuesNonempty p → cacheValuesNonempty (runProxy p ops) := by
  induction ops with
  | nil => exact fun p hp => hp
  | cons op rest ih =>
      intro p hp
      refine ih _ ?_
      cases op with
      | getHtml f => exact fetchCached_preserves _ _ _ (retriveHtml_ne_empty f) hp
      | getCss f => exact fetchCached_preserves _ _ _ (retriveCss_ne_empty f) hp
      | getJs f => exact fetchCached_preserves _ _ _ (retriveJs_ne_empty f) hp

theorem runProxy_nonempty (ops : List ProxyOp) :
    cacheValuesNonempty (runProxy freshProxy ops) :=
  runProxy_nonempty_from ops freshProxy (by intro kv hkv; simp [freshProxy] at hkv)

theorem fetchCached_spec (p : ProxyServer) (key content : String)
    (hinv : cacheValuesNonempty p) :
    (∀ v, cacheLookup p.cache key = some v →
        p.fetchCached key content = (v, true, p))
    ∧ (cacheLookup p.cache key = none →
        p.fetchCached key content =
          (content, false, { cache := (key, content) :: p.cache })) := by
  constructor
  · intro v hv
    have hne : v ≠ "" := hinv (key, v) (cacheLookup_mem _ _ _ hv)
    unfold ProxyServer.fetchCached
    simp [hv, hne]
  · intro hn
    unfold ProxyServer.fetchCached
    simp [hn]

theorem getterOK_of_fetch (kind : String) (retrieve : String → String)
    (hr : ∀ f, retrieve f ≠ "")
    (get : ProxyServer → String → String × Bool × ProxyServer)
    (hget : ∀ p f, get p f = p.fetchCached (kind ++ f) (retrieve f))
    (p : ProxyServer) (f : String) (hinv : cacheValuesNonempty p) :
    getterOK kind retrieve get p f := by
  have hspec := fetchCached_spec p (kind ++ f) (retrieve f) hinv
  refine ⟨fun v hv => by rw [hget]; exact hspec.1 v hv,
          fun hn => by rw [hget]; exact hspec.2 hn, ?_, ?_, ?_⟩ <;>
    rcases hl : cacheLookup p.cache (kind ++ f) with _ | v
  · have hn := hspec.2 hl
    have hinv2 : cacheValuesNonempty
        { cache := ((kind ++ f, retrieve f)) :: p.cache : ProxyServer } := by
      intro kv hkv
      rcases List.mem_cons.mp hkv with h1 | h2
      · rw [h1]; exact hr f
      · exact hinv kv h2
    have hl2 : cacheLookup ((kind ++ f, retrieve f) :: p.cache) (kind ++ f)
        = some (retrieve f) := by simp [cacheLookup]
    have hsnd := (fetchCached_spec { cache := (kind ++ f, retrieve f) :: p.cache }
        (kind ++ f) (retrieve f) hinv2).1 (retrieve f) hl2
    simp only [hget, hn, hsnd]
  · have hv := hspec.1 v hl
    simp only [hget, hv]
  · have hn := hspec.2 hl
    have hinv2 : cacheValuesNonempty
        { cache := ((kind ++ f, retrieve f)) :: p.cache : ProxyServer } := by
      intro kv hkv
      rcases List.mem_cons.mp hkv with h1 | h2
      · rw [h1]; exact hr f
      · exact hinv kv h2
    have hl2 : cacheLookup ((kind ++ f, retrieve f) :: p.cache) (kind ++ f)
        = some (retrieve f) := by simp [cacheLookup]
    have hsnd := (fetchCached_spec { cache := (kind ++ f, retrieve f) :: p.cache }
        (kind ++ f) (retrieve f) hinv2).1 (retrieve f) hl2
    simp only [hget, hn, hsnd]
  · have hv := hspec.1 v hl
    simp only [hget, hv]
  · intro _
    have hn := hspec.2 hl
    rw [hget, hn]
  · intro hc
    exact Option.noConfusion hc

/-- C1: on every reachable `ProxyServer`, each of `getHtml`, `getCss` and
    `getJs` looks up or computes: a cached kind-prefixed key is served from
    the cache unchanged, an absent one is computed via the corresponding
    `Cdn` retrieval, stored and returned; two consecutive calls with the
    same file name return equal strings, the second a hit and the first a
    miss when the key was absent. -/
theorem proxy_lookup_or_compute (ops : List ProxyOp) (f : String) :
    getterOK "html:" retriveHtml ProxyServer.getHtml (runProxy freshProxy ops) f
    ∧ getterOK "css:" retriveCss ProxyServer.getCss (runProxy freshProxy ops) f
    ∧ getterOK "js:" retriveJs ProxyServer.getJs (runProxy freshProxy ops) f :=
  ⟨getterOK_of_fetch _ _ retriveHtml_ne_empty _ (fun _ _ => rfl) _ f
      (runProxy_nonempty ops),
   getterOK_of_fetch _ _ retriveCss_ne_empty _ (fun _ _ => rfl) _ f
      (runProxy_nonempty ops),
   getterOK_of_fetch _ _ retriveJs_ne_empty _ (fun _ _ => rfl) _ f
      (runProxy_nonempty ops)⟩

/-- C1 witness: after one HTML request the same request is a cache hit
    served unchanged, and a CSS request on a fresh proxy is a stored
    miss. -/
theorem proxy_lookup_or_compute_witness :
    (runProxy freshProxy [ProxyOp.getHtml "file_1.html"]).getHtml "file_1.html"
      = (retriveHtml "file_1.html", true,
         runProxy freshProxy [ProxyOp.getHtml "file_1.html"])
    ∧ freshProxy.getCss "a"
      = (retriveCss "a", false,
         { cache := [("css:" ++ "a", retriveCss "a")] }) :=
  ⟨(proxy_lookup_or_compute [ProxyOp.getHtml "file_1.html"] "file_1.html").1.1
      (retriveHtml "file_1.html") (by decide),
   (proxy_lookup_or_compute [] "a").2.1.2.1 (by decide)⟩

/-! ## C7: singleton identity and connection counting -/

theorem runSingleton_created (ops : List SingletonOp) :
    ∀ (c : Nat) (obtained : List Nat), (∀ x ∈ obtained, x = 0) →
      validFrom { instances := [c], singletonInstance := some 0 } obtained ops
        = true →
      runSingleton { instances := [c], singletonInstance := some 0 } ops
        = singletonSpecResults c ops := by
  induction ops with
  | nil => intro c obtained _ _; rfl
  | cons op rest ih =>
      intro c obtained hobt h
      cases op with
      | getInstance =>
          show some 0 ::
              runSingleton { instances := [c], singletonInstance := some 0 } rest
            = some 0 :: singletonSpecResults c rest
          refine congrArg _ (ih c (0 :: obtained) ?_ h)
          intro x hx
          rcases List.mem_cons.mp hx with h1 | h2
          · exact h1
          · exact hobt x h2
      | establishConnection r =>
          have h2 := h
          simp only [validFrom, Bool.and_eq_true] at h2
          have hr : r = 0 := hobt r (List.mem_of_elem_eq_true h2.1)
          subst hr
          show none ::
              runSingleton { instances := [c + 1], singletonInstance := some 0 } rest
            = none :: singletonSpecResults (c + 1) rest
          exact congrArg _ (ih (c + 1) obtained hobt h2.2)
      | getConnectionCount r =>
          have h2 := h
          simp only [validFrom, Bool.and_eq_true] at h2
          have hr : r = 0 := hobt r (List.mem_of_elem_eq_true h2.1)
          subst hr
          show some c ::
              runSingleton { instances := [c], singletonInstance := some 0 } rest
            = some c :: singletonSpecResults c rest
          exact congrArg _ (ih c obtained hobt h2.2)

/-- C7: on every valid trace of calls (each through a reference previously
    obtained from `getInstance`) starting from a freshly loaded module,
    every `getInstance` call returns one and the same reference, and every
    `getConnectionCount` returns the total number of `establishConnection`
    calls made so far across all references. -/
theorem singleton_same_instance_and_counts (ops : List SingletonOp)
    (h : validFrom freshSingletonModule [] ops = true) :
    runSingleton freshSingletonModule ops = singletonSpecResults 0 ops := by
  cases ops with
  | nil => rfl
  | cons op rest =>
      cases op with
      | getInstance =>
          show some 0 ::
              runSingleton { instances := [0], singletonInstance := some 0 } rest
            = some 0 :: singletonSpecResults 0 rest
          refine congrArg _ (runSingleton_created rest 0 [0] ?_ h)
          intro x hx
          simpa using hx
      | establishConnection r => simp [validFrom, freshSingletonModule] at h
      | getConnectionCount r => simp [validFrom, freshSingletonModule] at h

/-- C7 witness: a concrete trace through two references, both equal to the
    first instance, with the counts accumulating across them. -/
theorem singleton_same_instance_and_counts_witness :
    runSingleton freshSingletonModule
        [.getInstance, .establishConnection 0, .getConnectionCount 0,
         .getInstance, .establishConnection 0, .getConnectionCount 0]
      = [some 0, none, some 1, some 0, none, some 2] :=
  (singleton_same_instance_and_counts
      [.getInstance, .establishConnection 0, .getConnectionCount 0,
       .getInstance, .establishConnection 0, .getConnectionCount 0]
      (by decide)).trans (by decide)

/-! ## C5: determinism of the demos -/

/-- C5 counterexample: the `HistoryManager` memento demo logs the date each
    memento captured at save time, so two runs of the same demo from a
    fresh module state, at different wall-clock readings, print different
    console output. -/
theorem mementoHistoryDemo_depends_on_clock :
    (mementoHistoryDemo "2025-01-01 00:00:00" freshSingletonModule).1
      ≠ (mementoHistoryDemo "2025-01-02 00:00:00" freshSingletonModule).1 := by
  decide

/-- C5 amended: every embedded demo other than the `HistoryManager`
    memento demo reads no input at all: its console output is the same at
    any two wall-clock readings and from any module state, so any two runs
    from a fresh module state print identical output. -/
theorem demos_deterministic_except_clock (d1 d2 : String)
    (g : SingletonModule) :
    (singletonDemo d1 g).1 = (singletonDemo d2 g).1
    ∧ (proxyDemo d1 g).1 = (proxyDemo d2 g).1
    ∧ (mementoDemo d1 g).1 = (mementoDemo d2 g).1
    ∧ (stateDemo d1 g).1 = (stateDemo d2 g).1
    ∧ (iteratorDemo d1 g).1 = (iteratorDemo d2 g).1 :=
  ⟨rfl, rfl, rfl, rfl, rfl⟩

/-! ## C6: demos are mutually independent -/

theorem demoAt_state_id (j : Fin 5) (hj : j ≠ 0) (d : String)
    (g : SingletonModule) : (demoAt j d g).2 = g := by
  fin_cases j
  · exact absurd rfl hj
  all_goals rfl

theorem runDemos_id (d : String) (prior : List (Fin 5))
    (h : ∀ j ∈ prior, j ≠ 0) (g : SingletonModule) :
    runDemos d g prior = g := by
  induction prior generalizing g with
  | nil => rfl
  | cons j rest ih =>
      show runDemos d (demoAt j d g).2 rest = g
      rw [demoAt_state_id j (h j (List.mem_cons_self j rest)) d g]
      exact ih (fun x hx => h x (List.mem_cons_of_mem j hx)) g

theorem demoAt_output_const (i : Fin 5) (hi : i ≠ 0) (d : String)
    (g g2 : SingletonModule) : (demoAt i d g).1 = (demoAt i d g2).1 := by
  fin_cases i
  · exact absurd rfl hi
  all_goals rfl

/-- C6: the embedded pattern demos are mutually independent: running any
    list of other demos first leaves the console output of a demo exactly
    what it is when run from the fresh process state, because no mutable
    module state is shared between two different example files. -/
theorem demos_independent (d : String) (i : Fin 5) (prior : List (Fin 5))
    (h : ∀ j ∈ prior, j ≠ i) :
    (demoAt i d (runDemos d freshSingletonModule prior)).1
      = (demoAt i d freshSingletonModule).1 := by
  by_cases hi : i = 0
  · subst hi
    rw [runDemos_id d prior h freshSingletonModule]
  · exact demoAt_output_const i hi d _ _

/-- C6 witness: the singleton demo prints the same lines whether or not the
    proxy demo ran before it. -/
theorem demos_independent_witness :
    (demoAt 0 "2025-01-01 00:00:00"
        (runDemos "2025-01-01 00:00:00" freshSingletonModule [1])).1
      = (demoAt 0 "2025-01-01 00:00:00" freshSingletonModule).1 :=
  demos_independent "2025-01-01 00:00:00" 0 [1] (by decide)
